import Mathlib

/-!
Verification of the pattoo-agents polling-and-assembly engine.

Shallow embedding of:
- `src/pattoo_agents/agents/modbus/tcp/configuration.py`
  (`_get_unit`, `_ranger`, `_create_register_counts`, `_create_drv`,
   `ConfigModbusTCP.registervariables`),
- `src/pattoo_agents/bacnet/ip/collector.py`
  (`_PollBACnetIP._serial_poller`, `_PollBACnetIP.data`),
- `src/bin/pattoo_agent_snmp_ifmibd.py` (`PollingAgent.query`).

Python machine values are modelled by `PyVal`; floats are modelled as exact
rationals (no claim here depends on rounding of binary floats).  Fallible
Python code (KeyError, TypeError, process-fatal exits) is modelled in
`Except PyErr`.
-/

/-- Model of a Python value as it can occur in a pattoo configuration tree
or as a raw protocol-read result. -/
inductive PyVal where
  | pyNone : PyVal
  | pyBool : Bool → PyVal
  | pyInt : Int → PyVal
  | pyFloat : ℚ → PyVal
  | pyStr : String → PyVal
  | pyList : List PyVal → PyVal
  | pyDict : List (String × PyVal) → PyVal

/-- Python dict lookup on the association-list model (first binding wins,
as in a dict where keys are unique). -/
def pyLookup (key : String) : List (String × PyVal) → Option PyVal
  | [] => none
  | kv :: rest => if kv.1 = key then some kv.2 else pyLookup key rest

/-- ASCII decimal digit test. -/
def isDigit (c : Char) : Bool := 48 ≤ c.toNat && c.toNat ≤ 57

/-- Accumulating decimal evaluation of a digit string. -/
def digitsToNat (acc : Nat) : List Char → Nat
  | [] => acc
  | c :: cs => digitsToNat (acc * 10 + (c.toNat - 48)) cs

/-- Split a character list at the first dot, if any. -/
def splitDot : List Char → (List Char × Option (List Char))
  | [] => ([], none)
  | c :: cs =>
    if c = '.' then ([], some cs)
    else
      let p := splitDot cs
      (c :: p.1, p.2)

/-- Modelled from the spec: parsing of an unsigned "numeric-looking" decimal
string (the shape accepted by Python `float()` for plain decimals), used by
the external `pattoo_shared.data.is_numeric` helper which is not under
`src/`.  Accepts digit strings with at most one dot and at least one
digit. -/
def parseUnsigned (cs : List Char) : Option ℚ :=
  let p := splitDot cs
  match p.2 with
  | none =>
    if cs ≠ [] ∧ cs.all isDigit then some ((digitsToNat 0 cs : Nat) : ℚ) else none
  | some fp =>
    if (p.1 ++ fp) ≠ [] ∧ p.1.all isDigit ∧ fp.all isDigit then
      some (((digitsToNat 0 p.1 : Nat) : ℚ) +
        ((digitsToNat 0 fp : Nat) : ℚ) / ((10 : ℚ) ^ fp.length))
    else none

/-- Modelled from the spec: signed decimal parsing for "numeric-looking"
strings (optional sign, digits, optional single dot). -/
def parseDec (s : String) : Option ℚ :=
  match s.toList with
  | [] => none
  | c :: rest =>
    if c = '-' then (parseUnsigned rest).map (fun q => -q)
    else if c = '+' then parseUnsigned rest
    else parseUnsigned (c :: rest)

/-- A string is numeric when it parses as a plain decimal. -/
def strNumeric (s : String) : Bool := (parseDec s).isSome

/-- Modelled from the spec: `pattoo_shared.data.is_numeric` (not under
`src/`) — true exactly when Python `float(value)` succeeds, so true for
booleans, ints, floats and numeric strings. -/
def pyIsNumeric : PyVal → Bool
  | .pyBool _ => true
  | .pyInt _ => true
  | .pyFloat _ => true
  | .pyStr s => strNumeric s
  | _ => false

/-- Modelled from the spec: Python `float(value)` on a value for which
`is_numeric` holds. -/
def pyFloatFn : PyVal → ℚ
  | .pyBool b => if b then 1 else 0
  | .pyInt n => (n : ℚ)
  | .pyFloat q => q
  | .pyStr s => (parseDec s).getD 0
  | _ => 0

/-- Python `int()` applied to a float: truncation toward zero. -/
def truncFloat (q : ℚ) : Int := if 0 ≤ q then q.floor else -((-q).floor)

/-- Shape test used for `isinstance(unit, str)`. -/
def isStr : PyVal → Bool
  | .pyStr _ => true
  | _ => false

/-- Shape test used for `isinstance(x, list)`. -/
def isList : PyVal → Bool
  | .pyList _ => true
  | _ => false

/-- Identity test `x is False`. -/
def isFalseVal : PyVal → Bool
  | .pyBool false => true
  | _ => false

/-- Identity test `x is True`. -/
def isTrueVal : PyVal → Bool
  | .pyBool true => true
  | _ => false

/-- Identity test `x is None`. -/
def isNoneVal : PyVal → Bool
  | .pyNone => true
  | _ => false

/-- Embedding of `_get_unit` from
`src/pattoo_agents/agents/modbus/tcp/configuration.py`.  Mirrors the
source: non-dicts and a missing "unit" key give 0; then
`valid = False not in [is_numeric(unit), isinstance(unit, str) is True,
unit is not False, unit is not True, unit is not None]`; invalid values
give 0; float values are truncated to int; anything else is returned
unchanged. -/
def get_unit (data : PyVal) : PyVal :=
  match data with
  | .pyDict kvs =>
    match pyLookup "unit" kvs with
    | none => .pyInt 0
    | some unit =>
      let checks : List Bool :=
        [pyIsNumeric unit, isStr unit,
         !(isFalseVal unit), !(isTrueVal unit), !(isNoneVal unit)]
      if checks.contains false then .pyInt 0
      else
        match unit with
        | .pyFloat q => .pyInt (truncFloat q)
        | u => u
  | _ => .pyInt 0

/-! ## Range compactor (`_ranger`, `_create_register_counts`) -/

/-- Model of Python `sorted(list(set(listing)))`: the distinct elements of
`listing` in ascending order (the sort in `_ranger` after duplicate
removal via `set`). -/
def sortedSet (listing : List Int) : List Int :=
  List.insertionSort (fun a b => a ≤ b) listing.dedup

/-- Run grouping of `_ranger`: `itertools.groupby(enumerate(listing),
lambda pair: pair[1] - pair[0])` over the strictly increasing deduplicated
sorted list groups maximal chunks of consecutive integers (the key
`value - index` is constant exactly on such chunks), and each group yields
`(first value, last value)`.  `runsFrom start cur xs` scans `xs` knowing
the current chunk began at `start` and has reached `cur`. -/
def runsFrom (start cur : Int) : List Int → List (Int × Int)
  | [] => [(start, cur)]
  | x :: xs =>
    if x = cur + 1 then runsFrom start x xs
    else (start, cur) :: runsFrom x x xs

/-- Embedding of `_ranger` from
`src/pattoo_agents/agents/modbus/tcp/configuration.py`: deduplicate, sort,
then yield `(start, stop)` for every maximal run of consecutive
integers. -/
def ranger (listing : List Int) : List (Int × Int) :=
  match sortedSet listing with
  | [] => []
  | x :: xs => runsFrom x x xs

/-- Python tuple comparison `(a, b) <= (c, d)` (lexicographic), the order
used by `result.sort()` in `_create_register_counts`. -/
def pairLe (p q : Int × Int) : Prop := p.1 < q.1 ∨ (p.1 = q.1 ∧ p.2 ≤ q.2)

instance : DecidableRel pairLe := fun p q => by
  unfold pairLe
  infer_instance

/-- Embedding of `_create_register_counts`: convert each `(start, stop)`
run of `_ranger` into `(start, stop - start + 1)` and sort the result. -/
def create_register_counts (listing : List Int) : List (Int × Int) :=
  List.insertionSort pairLe
    ((ranger listing).map (fun p => (p.1, p.2 - p.1 + 1)))

/-- Expansion of a `(start, length)` pair back into the integers
`start, start + 1, ..., start + length - 1`. -/
def expandLen (p : Int × Int) : List Int :=
  (List.range p.2.toNat).map (fun (i : Nat) => p.1 + (i : Int))

/-- The inclusive integer range `[a..b]` as a list. -/
def rangeII (a b : Int) : List Int :=
  (List.range (b - a + 1).toNat).map (fun (i : Nat) => a + (i : Int))

/-! ## Modbus target resolver (`_create_drv`, `registervariables`) -/

/-- Errors with which the embedded Python code can abort: `KeyError`,
`TypeError`, and the process-fatal exit of `log.log2die` (triggered by
`configuration.search(..., die=True)`). -/
inductive PyErr where
  | keyError : String → PyErr
  | typeError : PyErr
  | die : PyErr

/-- Python subscript `d[key]` on a dict: the value, or `KeyError`. -/
def dictGet (kvs : List (String × PyVal)) (key : String) : Except PyErr PyVal :=
  match pyLookup key kvs with
  | some v => .ok v
  | none => .error (.keyError key)

/-- Modelled from the spec: `pattoo_shared.configuration.search(key,
sub_key, config, die=True)` (not under `src/`) — resolves
`config[key][sub_key]` and exits the process (here: `PyErr.die`) when the
required key path is absent, matching the spec's "required key path
`polling_groups` (fatal if absent)". -/
def search (key sub_key : String) (config : PyVal) : Except PyErr PyVal :=
  match config with
  | .pyDict kvs =>
    match pyLookup key kvs with
    | some (.pyDict kvs2) =>
      match pyLookup sub_key kvs2 with
      | some v => .ok v
      | none => .error .die
    | _ => .error .die
  | _ => .error .die

/-- Python iteration `for x in v`: lists yield their elements, strings
their characters, dicts their keys; other values raise `TypeError`. -/
def pyIter : PyVal → Except PyErr (List PyVal)
  | .pyList l => .ok l
  | .pyStr s => .ok (s.toList.map (fun c => .pyStr (String.mk [c])))
  | .pyDict kvs => .ok (kvs.map (fun kv => .pyStr kv.1))
  | _ => .error .typeError

/-- Python substring test `needle in hay` for strings. -/
def strIn (needle hay : String) : Bool :=
  hay.toList.tails.any (fun t => needle.toList.isPrefixOf t)

/-- Python membership `needle in v` for a string needle: dict key
membership, list element membership, substring on strings; `TypeError` on
non-containers. -/
def pyContains (needle : String) : PyVal → Except PyErr Bool
  | .pyDict kvs => .ok (pyLookup needle kvs).isSome
  | .pyList l =>
    .ok (l.any (fun e =>
      match e with
      | .pyStr s => s = needle
      | _ => false))
  | .pyStr s => .ok (strIn needle s)
  | _ => .error .typeError

/-- Conversion of the configured register list to integers for
`_create_register_counts`: every element must be an int, otherwise the
set/sort/subtraction machinery of `_ranger` raises `TypeError`. -/
def pyIntListOf : PyVal → Except PyErr (List Int)
  | .pyList l =>
    l.mapM (fun e =>
      match e with
      | .pyInt n => Except.ok n
      | _ => Except.error PyErr.typeError)
  | _ => .error .typeError

/-- Register kind: `InputRegisterVariable` vs `HoldingRegisterVariable`. -/
inductive RegisterKind where
  | inputRegister : RegisterKind
  | holdingRegister : RegisterKind

/-- One register variable (register, count, unit, kind), as built by
`_create_drv`. -/
structure RegisterVariable where
  register : Int
  count : Int
  unit : PyVal
  kind : RegisterKind

/-- `DeviceRegisterVariables`: the register variables attached to one
device (field `regvars` models the Python attribute `variables`). -/
structure DeviceRegisterVariables where
  device : PyVal
  regvars : List RegisterVariable

/-- Embedding of `_create_drv` from
`src/pattoo_agents/agents/modbus/tcp/configuration.py`.  Mirrors the
source faithfully, including its hazards: non-dicts return `[]`; the
screen evaluates `data["ip_devices"]` unconditionally (KeyError when the
key is absent) and skips the group only when BOTH the device value and
the register value are non-lists (`and`, with Python short-circuiting:
the register value is only fetched when the device value is not a list);
then it iterates the device value (TypeError on non-iterables). -/
def create_drv (data : PyVal) (register_type : String) :
    Except PyErr (List DeviceRegisterVariables) :=
  match data with
  | .pyDict kvs => do
    if !(strIn register_type "input_registers") &&
        !(strIn register_type "holding_registers") then
      return []
    let ip ← dictGet kvs "ip_devices"
    let screen ←
      if isList ip then pure false
      else do
        let regs ← dictGet kvs register_type
        pure (!(isList regs))
    if screen then return []
    let unit := get_unit data
    let devices ← pyIter ip
    devices.mapM (fun ip_device => do
      let regsVal ← dictGet kvs register_type
      let listing ← pyIntListOf regsVal
      let register_counts := create_register_counts listing
      let vlist := register_counts.map (fun rc =>
        if register_type = "holding_registers" then
          RegisterVariable.mk rc.1 rc.2 unit .holdingRegister
        else
          RegisterVariable.mk rc.1 rc.2 unit .inputRegister)
      pure (DeviceRegisterVariables.mk ip_device vlist))
  | _ => pure []

/-- Embedding of `ConfigModbusTCP.registervariables`: fetch
`config[PATTOO_AGENT_MODBUSTCPD]["polling_groups"]` fatally, then for each
group and each register kind present in the group, extend the result with
`_create_drv`. -/
def registervariables (config : PyVal) :
    Except PyErr (List DeviceRegisterVariables) := do
  let groups ← search "PATTOO_AGENT_MODBUSTCPD" "polling_groups" config
  let groupList ← pyIter groups
  groupList.foldlM (fun acc group => do
    (["input_registers", "holding_registers"]).foldlM (fun acc2 register => do
      let present ← pyContains register group
      if present then do
        let drvs ← create_drv group register
        pure (acc2 ++ drvs)
      else
        pure acc2) acc) []

/-! ## BACnet/IP collector (`_PollBACnetIP._serial_poller`, `.data`) -/

/-- One polling target for a BACnet device: the point address and the
scale `multiplier`. -/
structure PollingPoint where
  address : Int
  multiplier : ℚ
deriving DecidableEq

/-- Outcome of one `bacnet.read(...)` call by the injected protocol
client: a value, or one of the exception classes handled by the four
`except` clauses of `_serial_poller` (`NoResponseFromController`,
`UnknownObjectError`, any other `Exception` with its reason, or a
non-`Exception` error caught by the bare `except`). -/
inductive ReadResult where
  | ok : PyVal → ReadResult
  | noResponse : ReadResult
  | unknownObject : ReadResult
  | exc : String → ReadResult
  | baseExc : ReadResult

/-- `DATA_FLOAT` / `DATA_STRING` from `pattoo_shared.constants`. -/
inductive DataType where
  | DATA_FLOAT : DataType
  | DATA_STRING : DataType
deriving DecidableEq

/-- A canonical data point as assembled by `_serial_poller`: key
`BACnet_analogValue`, the (possibly transformed) value, its type, and the
`DataPointMeta` tags added with `datapoint.add`. -/
structure DataPoint where
  key : String
  value : PyVal
  data_type : DataType
  meta : List (String × PyVal)

/-- The query string `"{} {} {} presentValue".format(ip_device,
"analogValue", polltarget.address)` handed to `bacnet.read`. -/
def pollerString (ip_device : String) (address : Int) : String :=
  ip_device ++ " analogValue " ++ toString address ++ " presentValue"

/-- The target loop of `_serial_poller`: read each target, skip it on any
of the four handled exception classes (each handler logs and
`continue`s), otherwise multiply numeric values by the target's
multiplier and classify (`DATA_FLOAT` vs `DATA_STRING`), then tag with
`point` and `device`. -/
def pollPoints (client : String → ReadResult) (ip_device : String) :
    List PollingPoint → List DataPoint
  | [] => []
  | polltarget :: rest =>
    match client (pollerString ip_device polltarget.address) with
    | .noResponse => pollPoints client ip_device rest
    | .unknownObject => pollPoints client ip_device rest
    | .exc _ => pollPoints client ip_device rest
    | .baseExc => pollPoints client ip_device rest
    | .ok value =>
      let dp : DataPoint :=
        if pyIsNumeric value then
          DataPoint.mk "BACnet_analogValue"
            (.pyFloat (pyFloatFn value * polltarget.multiplier)) .DATA_FLOAT
            [("point", .pyInt polltarget.address), ("device", .pyStr ip_device)]
        else
          DataPoint.mk "BACnet_analogValue" value .DATA_STRING
            [("point", .pyInt polltarget.address), ("device", .pyStr ip_device)]
      dp :: pollPoints client ip_device rest

/-- Modelled from the spec: `pattoo_shared.variables.DeviceDataPoints`
(not under `src/`) — the `DevicePointSet` of the spec: a device identifier
and its sequence of points. -/
structure DeviceDataPoints where
  device : String
  data : List DataPoint

/-- Modelled from the spec: the `valid` flag of a `DeviceDataPoints`.  Per
the spec's data model a point set needs only a device identifier to be
valid: "devices that yield zero points are still valid but carry an empty
sequence". -/
def DeviceDataPoints.valid (ddv : DeviceDataPoints) : Bool :=
  !(ddv.device = "")

/-- Embedding of `_PollBACnetIP._serial_poller`: gather the points for one
device and wrap them in a `DeviceDataPoints`. -/
def serial_poller (client : String → ReadResult) (ip_device : String)
    (polltargets : List PollingPoint) : DeviceDataPoints :=
  DeviceDataPoints.mk ip_device (pollPoints client ip_device polltargets)

/-- Python string comparison (lexicographic on code points) as a Boolean
test; `String.le` itself does not reduce well, so compare the character
lists directly. -/
def charsLe : List Char → List Char → Bool
  | [], _ => true
  | _ :: _, [] => false
  | a :: as, b :: bs =>
    if a.toNat < b.toNat then true
    else if b.toNat < a.toNat then false
    else charsLe as bs

/-- String order used by Python `sorted` on dict items keyed by device
identifier. -/
def strLe (a b : String) : Bool := charsLe a.toList b.toList

/-- The `arguments` list of `_PollBACnetIP.data`:
`sorted(self._ip_polltargets.items())`.  Keys of a dict are distinct, so
Python's tuple order reduces to the order on the device identifier. -/
def sortedArguments (m : List (String × List PollingPoint)) :
    List (String × List PollingPoint) :=
  List.insertionSort (fun a b => strLe a.1 b.1 = true) m

/-- Embedding of `_PollBACnetIP.data`: poll every device in sorted order
and append each resulting `DeviceDataPoints` whose `valid` flag is true. -/
def collector_data (client : String → ReadResult)
    (m : List (String × List PollingPoint)) : List DeviceDataPoints :=
  ((sortedArguments m).map (fun a => serial_poller client a.1 a.2)).filter
    (fun ddv => ddv.valid)

/-- The sequence of device identifiers in the order `_PollBACnetIP.data`
polls them. -/
def pollOrder (m : List (String × List PollingPoint)) : List String :=
  (sortedArguments m).map Prod.fst

/-! ## Scheduling loop (`PollingAgent.query` in
`src/bin/pattoo_agent_snmp_ifmibd.py`) -/

/-- The sleep computed at the end of each cycle:
`sleep(abs(interval - duration))`. -/
def sleep_amount (interval duration : ℚ) : ℚ := |interval - duration|

/-- Observable events of one pass of the `while True` loop of
`PollingAgent.query`. -/
inductive Event where
  | evPoll : Event
  | evPost : Bool → Event
  | evPurge : Event
  | evSleep : ℚ → Event
deriving DecidableEq

/-- The outcome of one cycle: whether `server.post()` reported success,
and the measured wall-clock duration `time() - ts_start` of the cycle. -/
structure LoopCycle where
  postSuccess : Bool
  duration : ℚ

/-- The events of one loop body execution: collect, post, purge only when
the post succeeded, then sleep `abs(interval - duration)`. -/
def cycleEvents (interval : ℚ) (c : LoopCycle) : List Event :=
  [Event.evPoll, Event.evPost c.postSuccess] ++
    (if c.postSuccess then [Event.evPurge] else []) ++
    [Event.evSleep (sleep_amount interval c.duration)]

/-- The event trace of finitely many iterations of the `while True` loop
of `PollingAgent.query`, driven by the listed cycle outcomes. -/
def queryTrace (interval : ℚ) : List LoopCycle → List Event
  | [] => []
  | c :: cs => cycleEvents interval c ++ queryTrace interval cs

/-! ## Range compactor lemmas -/

lemma sortedSet_sorted (l : List Int) :
    List.Sorted (fun a b : Int => a ≤ b) (sortedSet l) :=
  List.sorted_insertionSort _ _

lemma sortedSet_perm_dedup (l : List Int) : (sortedSet l).Perm l.dedup :=
  List.perm_insertionSort _ _

lemma sortedSet_nodup (l : List Int) : (sortedSet l).Nodup :=
  ((sortedSet_perm_dedup l).symm.nodup (List.nodup_dedup l))

lemma mem_sortedSet {x : Int} {l : List Int} : x ∈ sortedSet l ↔ x ∈ l := by
  rw [(sortedSet_perm_dedup l).mem_iff, List.mem_dedup]

lemma sortedSet_pairwise_lt (l : List Int) :
    List.Pairwise (fun a b : Int => a < b) (sortedSet l) :=
  ((sortedSet_sorted l).and (sortedSet_nodup l)).imp
    (fun h => lt_of_le_of_ne h.1 h.2)

lemma sortedSet_length (l : List Int) :
    (sortedSet l).length = l.dedup.length :=
  (sortedSet_perm_dedup l).length_eq

lemma rangeII_self (a : Int) : rangeII a a = [a] := by
  have h : (a - a + 1).toNat = 1 := by omega
  simp [rangeII, h, List.range_succ]

lemma rangeII_succ {a b : Int} (h : a ≤ b) :
    rangeII a (b + 1) = rangeII a b ++ [b + 1] := by
  have h1 : (b + 1 - a + 1).toNat = (b - a + 1).toNat + 1 := by omega
  rw [rangeII, h1, List.range_succ, List.map_append, rangeII]
  simp only [List.map_cons, List.map_nil]
  congr 2
  omega

lemma runsFrom_flat (xs : List Int) : ∀ start cur : Int, start ≤ cur →
    List.Chain' (fun a b : Int => a < b) (cur :: xs) →
    (runsFrom start cur xs).flatMap (fun p => rangeII p.1 p.2) =
      rangeII start cur ++ xs := by
  induction xs with
  | nil =>
    intro start cur _ _
    simp [runsFrom]
  | cons x xs ih =>
    intro start cur h1 h2
    have hcx : cur < x := (List.chain'_cons.mp h2).1
    have h2' := (List.chain'_cons.mp h2).2
    rw [runsFrom]
    by_cases hx : x = cur + 1
    · rw [if_pos hx]
      rw [ih start x (by omega) h2']
      subst hx
      rw [rangeII_succ h1]
      simp
    · rw [if_neg hx]
      rw [List.flatMap_cons]
      rw [ih x x le_rfl h2']
      rw [rangeII_self]
      simp

lemma runsFrom_struct (xs : List Int) : ∀ start cur : Int, start ≤ cur →
    List.Chain' (fun a b : Int => a < b) (cur :: xs) →
    (∀ p ∈ runsFrom start cur xs, p.1 ≤ p.2) ∧
    (∀ p ∈ runsFrom start cur xs, start ≤ p.1) ∧
    List.Pairwise (fun p q : Int × Int => p.2 + 1 < q.1)
      (runsFrom start cur xs) := by
  induction xs with
  | nil =>
    intro start cur h1 _
    refine ⟨?_, ?_, ?_⟩ <;> simp [runsFrom, h1]
  | cons x xs ih =>
    intro start cur h1 h2
    have hcx : cur < x := (List.chain'_cons.mp h2).1
    have h2' := (List.chain'_cons.mp h2).2
    rw [runsFrom]
    by_cases hx : x = cur + 1
    · rw [if_pos hx]
      obtain ⟨ha, hb, hc⟩ := ih start x (by omega) h2'
      exact ⟨ha, hb, hc⟩
    · rw [if_neg hx]
      obtain ⟨ha, hb, hc⟩ := ih x x le_rfl h2'
      refine ⟨?_, ?_, ?_⟩
      · intro p hp
        rcases List.mem_cons.mp hp with rfl | hp'
        · exact h1
        · exact ha p hp'
      · intro p hp
        rcases List.mem_cons.mp hp with rfl | hp'
        · exact le_rfl
        · have := hb p hp'
          omega
      · refine List.Pairwise.cons ?_ hc
        intro q hq
        have := hb q hq
        simp only
        omega

lemma ranger_flat (l : List Int) :
    (ranger l).flatMap (fun p => rangeII p.1 p.2) = sortedSet l := by
  rw [ranger]
  rcases h : sortedSet l with _ | ⟨x, xs⟩
  · simp
  · have hch : List.Chain' (fun a b : Int => a < b) (x :: xs) := by
      rw [← h]
      exact (sortedSet_pairwise_lt l).chain'
    rw [runsFrom_flat xs x x le_rfl hch, rangeII_self]
    simp

lemma ranger_struct (l : List Int) :
    (∀ p ∈ ranger l, p.1 ≤ p.2) ∧
    List.Pairwise (fun p q : Int × Int => p.2 + 1 < q.1) (ranger l) := by
  rw [ranger]
  rcases h : sortedSet l with _ | ⟨x, xs⟩
  · simp
  · have hch : List.Chain' (fun a b : Int => a < b) (x :: xs) := by
      rw [← h]
      exact (sortedSet_pairwise_lt l).chain'
    obtain ⟨ha, _, hc⟩ := runsFrom_struct xs x x le_rfl hch
    exact ⟨ha, hc⟩

lemma crc_eq (l : List Int) :
    create_register_counts l =
      (ranger l).map (fun p => (p.1, p.2 - p.1 + 1)) := by
  apply List.Sorted.insertionSort_eq
  obtain ⟨ha, hc⟩ := ranger_struct l
  rw [List.Sorted, List.pairwise_map]
  refine hc.imp_of_mem ?_
  intro p q hp _ hr
  have := ha p hp
  exact Or.inl (by omega)

lemma crc_pairwise (l : List Int) :
    List.Pairwise (fun p q : Int × Int => p.1 + p.2 < q.1)
      (create_register_counts l) := by
  rw [crc_eq, List.pairwise_map]
  obtain ⟨_, hc⟩ := ranger_struct l
  exact hc.imp (fun h => by omega)

lemma crc_len_pos (l : List Int) : ∀ p ∈ create_register_counts l, 1 ≤ p.2 := by
  rw [crc_eq]
  intro p hp
  obtain ⟨q, hq, rfl⟩ := List.mem_map.mp hp
  have := (ranger_struct l).1 q hq
  simp only
  omega

lemma crc_flat (l : List Int) :
    (create_register_counts l).flatMap expandLen = sortedSet l := by
  rw [crc_eq, List.flatMap_map]
  rw [← ranger_flat l]
  congr 1

lemma expandLen_length (p : Int × Int) : (expandLen p).length = p.2.toNat := by
  simp [expandLen]

lemma mem_expandLen {p : Int × Int} {x : Int} (hp : 0 ≤ p.2) :
    x ∈ expandLen p ↔ p.1 ≤ x ∧ x < p.1 + p.2 := by
  simp only [expandLen, List.mem_map, List.mem_range]
  constructor
  · rintro ⟨i, hi, rfl⟩
    omega
  · rintro ⟨h1, h2⟩
    exact ⟨(x - p.1).toNat, by omega, by omega⟩

lemma sum_snd_eq_toNat (L : List (Int × Int)) (h : ∀ p ∈ L, 0 ≤ p.2) :
    (L.map Prod.snd).sum = (Nat.cast ((L.map (fun p => p.2.toNat)).sum) : Int) := by
  induction L with
  | nil => simp
  | cons p L ih =>
    simp only [List.map_cons, List.sum_cons]
    rw [ih (fun q hq => h q (List.mem_cons_of_mem _ hq))]
    have := h p (List.mem_cons_self _ _)
    omega

lemma pairwise_cases {α : Type*} {R : α → α → Prop} :
    ∀ {l : List α}, List.Pairwise R l → ∀ {a b : α}, a ∈ l → b ∈ l →
      a = b ∨ R a b ∨ R b a := by
  intro l h
  induction h with
  | nil =>
    intro a b ha _
    exact absurd ha (List.not_mem_nil a)
  | cons hr _ ih =>
    intro a b ha hb
    rcases List.mem_cons.mp ha with rfl | ha' <;>
      rcases List.mem_cons.mp hb with rfl | hb'
    · exact Or.inl rfl
    · exact Or.inr (Or.inl (hr b hb'))
    · exact Or.inr (Or.inr (hr a ha'))
    · exact ih ha' hb'

lemma crc_mem_flat (l : List Int) (x : Int) :
    x ∈ (create_register_counts l).flatMap expandLen ↔ x ∈ l := by
  rw [crc_flat]
  exact mem_sortedSet

lemma crc_maximal (l : List Int) : ∀ p ∈ create_register_counts l,
    (∀ x : Int, p.1 ≤ x → x < p.1 + p.2 → x ∈ l) ∧
    (p.1 - 1) ∉ l ∧ (p.1 + p.2) ∉ l := by
  intro p hp
  have hpos := crc_len_pos l
  have hp2 := hpos p hp
  have hpw := crc_pairwise l
  refine ⟨?_, ?_, ?_⟩
  · intro x h1 h2
    rw [← crc_mem_flat l]
    exact List.mem_flatMap.mpr ⟨p, hp, (mem_expandLen (by omega)).mpr ⟨h1, h2⟩⟩
  · intro hmem
    rw [← crc_mem_flat l] at hmem
    obtain ⟨q, hq, hxq⟩ := List.mem_flatMap.mp hmem
    have hq2 := hpos q hq
    have hx := (mem_expandLen (by omega)).mp hxq
    rcases pairwise_cases hpw hp hq with rfl | h | h <;> omega
  · intro hmem
    rw [← crc_mem_flat l] at hmem
    obtain ⟨q, hq, hxq⟩ := List.mem_flatMap.mp hmem
    have hq2 := hpos q hq
    have hx := (mem_expandLen (by omega)).mp hxq
    rcases pairwise_cases hpw hp hq with rfl | h | h <;> omega

lemma crc_sum_lengths (l : List Int) :
    ((create_register_counts l).map Prod.snd).sum = (l.toFinset.card : Int) := by
  have h1 := congrArg List.length (crc_flat l)
  rw [List.length_flatMap, sortedSet_length] at h1
  have h2 : List.map (List.length ∘ expandLen) (create_register_counts l) =
      List.map (fun p => p.2.toNat) (create_register_counts l) := by
    simp [Function.comp, expandLen_length]
  rw [h2] at h1
  rw [sum_snd_eq_toNat _ (fun p hp => by have := crc_len_pos l p hp; omega), h1,
    List.card_toFinset]

/-! ## Claim theorems: range compactor -/

/-- C2: for every finite list of integers, `_create_register_counts`
returns `(start, length)` pairs whose lengths sum to the number of
distinct input values, every length is at least 1, the runs are pairwise
non-overlapping and sorted strictly ascending by start, and each run is a
maximal block of consecutive integers from the input (all its members are
in the input while the integers just before and just after it are not);
concretely, compacting `[5,6,7,10]` yields `[(5,3),(10,1)]`, compacting
`[]` yields `[]`, and compacting `[3,3,3]` yields `[(3,1)]`. -/
theorem c2_range_compactor (l : List Int) :
    ((create_register_counts l).map Prod.snd).sum = (l.toFinset.card : Int) ∧
    (∀ p ∈ create_register_counts l, 1 ≤ p.2) ∧
    List.Pairwise (fun p q : Int × Int => p.1 + p.2 ≤ q.1)
      (create_register_counts l) ∧
    List.Pairwise (fun p q : Int × Int => p.1 < q.1)
      (create_register_counts l) ∧
    (∀ p ∈ create_register_counts l,
      (∀ x : Int, p.1 ≤ x → x < p.1 + p.2 → x ∈ l) ∧
      (p.1 - 1) ∉ l ∧ (p.1 + p.2) ∉ l) ∧
    create_register_counts [5, 6, 7, 10] = [(5, 3), (10, 1)] ∧
    create_register_counts [] = [] ∧
    create_register_counts [3, 3, 3] = [(3, 1)] := by
  refine ⟨crc_sum_lengths l, crc_len_pos l, ?_, ?_, crc_maximal l,
    by decide, by decide, by decide⟩
  · exact (crc_pairwise l).imp (fun h => le_of_lt h)
  · refine (crc_pairwise l).imp_of_mem ?_
    intro p q hp _ h
    have := crc_len_pos l p hp
    omega

/-- C2 witness: the theorem applied at the concrete input `[5,6,7,10]`,
with its inner membership hypotheses discharged at the run `(5,3)`. -/
theorem c2_range_compactor_witness :
    ((create_register_counts [5, 6, 7, 10]).map Prod.snd).sum =
      ((([5, 6, 7, 10] : List Int).toFinset.card : Int)) ∧
    ((6 : Int) ∈ ([5, 6, 7, 10] : List Int)) ∧
    ((8 : Int) ∉ ([5, 6, 7, 10] : List Int)) := by
  have h := c2_range_compactor [5, 6, 7, 10]
  have hmem : ((5 : Int), (3 : Int)) ∈ create_register_counts [5, 6, 7, 10] := by
    rw [h.2.2.2.2.2.1]
    exact List.mem_cons_self _ _
  have hmax := h.2.2.2.2.1 (5, 3) hmem
  refine ⟨h.1, ?_, ?_⟩
  · exact hmax.1 6 (by norm_num) (by norm_num)
  · have h8 : ((5 : Int), (3 : Int)).1 + ((5 : Int), (3 : Int)).2 = 8 := by norm_num
    rw [← h8]
    exact hmax.2.2

/-- C10: expanding the `(start, length)` pairs of the compaction output in
output order and concatenating yields exactly the sorted deduplicated
input list (`sortedSet`, the model of Python `sorted(set(listing))`): the
concatenation is strictly sorted, duplicate-free, and contains exactly
the members of the input. -/
theorem c10_compaction_roundtrip (l : List Int) :
    (create_register_counts l).flatMap expandLen = sortedSet l ∧
    List.Pairwise (fun a b : Int => a < b)
      ((create_register_counts l).flatMap expandLen) ∧
    ((create_register_counts l).flatMap expandLen).Nodup ∧
    (∀ x : Int, x ∈ (create_register_counts l).flatMap expandLen ↔ x ∈ l) := by
  refine ⟨crc_flat l, ?_, ?_, fun x => crc_mem_flat l x⟩
  · rw [crc_flat]
    exact sortedSet_pairwise_lt l
  · rw [crc_flat]
    exact sortedSet_nodup l

/-- C10 witness: the round-trip equality evaluated at `[10, 5, 7, 6, 5]`. -/
theorem c10_compaction_roundtrip_witness :
    (create_register_counts [10, 5, 7, 6, 5]).flatMap expandLen =
      sortedSet [10, 5, 7, 6, 5] ∧
    sortedSet [10, 5, 7, 6, 5] = [5, 6, 7, 10] := by
  exact ⟨(c10_compaction_roundtrip [10, 5, 7, 6, 5]).1, by decide⟩

/-! ## Claim theorems: scheduling sleep (C1) -/

/-- C1: the scheduling loop of `PollingAgent.query` computes the
end-of-cycle sleep as `abs(interval - duration)`, not
`max(0, interval - duration)`: for a cycle of duration 15 against a
polling interval of 10, the loop sleeps 5 seconds — a positive sleep
computed from an overrun — instead of the 0 the claim requires. -/
theorem c1_sleep_amount_is_abs :
    sleep_amount 10 15 = 5 ∧
    sleep_amount 10 15 ≠ max 0 ((10 : ℚ) - 15) ∧
    (queryTrace 10 [⟨true, 15⟩])[3]? = some (.evSleep 5) := by
  have habs : sleep_amount 10 15 = 5 := by
    rw [sleep_amount, show (10 : ℚ) - 15 = -5 by norm_num, abs_neg]
    exact abs_of_pos (by norm_num)
  have hmax : max 0 ((10 : ℚ) - 15) = 0 :=
    max_eq_left (by norm_num)
  refine ⟨habs, ?_, ?_⟩
  · rw [habs, hmax]
    norm_num
  · show some (Event.evSleep (sleep_amount 10 15)) = some (.evSleep 5)
    rw [habs]

/-! ## Claim theorems: unit resolution (C3) -/

/-- C3: `_get_unit` does not behave as claimed.  Its validity check
requires `isinstance(unit, str)`, so only numeric strings pass, and they
are returned unchanged (the float-to-int truncation branch is
unreachable): `unit: "12.7"` yields the string `"12.7"`, not the integer
12, and genuinely numeric values such as `unit: 2` or `unit: 12.7` fall
back to the default 0.  Only the boolean/missing cases agree with the
claim. -/
theorem c3_get_unit_accepts_only_numeric_strings :
    get_unit (.pyDict [("unit", .pyStr "12.7")]) = .pyStr "12.7" ∧
    get_unit (.pyDict [("unit", .pyStr "12.7")]) ≠ .pyInt 12 ∧
    get_unit (.pyDict [("unit", .pyInt 2)]) = .pyInt 0 ∧
    get_unit (.pyDict [("unit", .pyFloat (127 / 10))]) = .pyInt 0 ∧
    get_unit (.pyDict [("unit", .pyBool true)]) = .pyInt 0 ∧
    get_unit (.pyDict []) = .pyInt 0 := by
  refine ⟨rfl, ?_, rfl, rfl, rfl, rfl⟩
  intro h
  have h' : PyVal.pyStr "12.7" = PyVal.pyInt 12 := h
  exact PyVal.noConfusion h'

/-! ## Claim theorems: target resolution fault handling (C4) -/

/-- A well-formed polling group: one device, registers 1 and 2. -/
def modbusGoodGroup : PyVal := .pyDict
  [("ip_devices", .pyList [.pyStr "10.0.0.1"]),
   ("input_registers", .pyList [.pyInt 1, .pyInt 2])]

/-- A malformed polling group: the device list is missing. -/
def modbusBadGroup : PyVal := .pyDict [("input_registers", .pyList [.pyInt 1])]

/-- Configuration whose agent section lacks the required
"polling_groups" key. -/
def cfgMissingPollingGroups : PyVal := .pyDict
  [("PATTOO_AGENT_MODBUSTCPD", .pyDict [("other", .pyNone)])]

/-- Configuration with one good group followed by one group missing its
device list. -/
def cfgWithBadGroup : PyVal := .pyDict
  [("PATTOO_AGENT_MODBUSTCPD", .pyDict
     [("polling_groups", .pyList [modbusGoodGroup, modbusBadGroup])])]

/-- Configuration with only the good group. -/
def cfgGoodOnly : PyVal := .pyDict
  [("PATTOO_AGENT_MODBUSTCPD", .pyDict
     [("polling_groups", .pyList [modbusGoodGroup])])]

/-- Configuration whose group list contains a non-container group. -/
def cfgNonDictGroup : PyVal := .pyDict
  [("PATTOO_AGENT_MODBUSTCPD", .pyDict
     [("polling_groups", .pyList [.pyInt 5])])]

/-- C4: target resolution does not skip malformed groups silently.
Missing "polling_groups" is indeed process-fatal and a fully valid
configuration resolves, but: a group whose device list is missing raises
`KeyError("ip_devices")` (and that error aborts `registervariables` as a
whole, killing the good group's resolution too); the shape screen skips a
group only when BOTH the device value and the register value are
non-lists; a group with a non-list device value but a list register value
proceeds and raises `TypeError` when iterated; and a non-container group
raises `TypeError` already at the `register in group` membership test in
`registervariables`. -/
theorem c4_resolution_error_behaviour :
    registervariables cfgMissingPollingGroups = .error .die ∧
    registervariables cfgGoodOnly = .ok
      [DeviceRegisterVariables.mk (.pyStr "10.0.0.1")
        [RegisterVariable.mk 1 2 (.pyInt 0) .inputRegister]] ∧
    create_drv modbusBadGroup "input_registers" =
      .error (.keyError "ip_devices") ∧
    registervariables cfgWithBadGroup = .error (.keyError "ip_devices") ∧
    create_drv (.pyDict [("ip_devices", .pyInt 5), ("input_registers", .pyInt 6)])
      "input_registers" = .ok [] ∧
    create_drv
      (.pyDict [("ip_devices", .pyInt 5), ("input_registers", .pyList [.pyInt 1])])
      "input_registers" = .error .typeError ∧
    registervariables cfgNonDictGroup = .error .typeError ∧
    create_drv (.pyInt 5) "input_registers" = .ok [] := by
  exact ⟨rfl, rfl, rfl, rfl, rfl, rfl, rfl, rfl⟩

/-! ## Device poller lemmas -/

lemma pollPoints_no_point_of_fail (client : String → ReadResult)
    (device : String) (targets : List PollingPoint) (taddr : Int)
    (hfail : ∀ v, client (pollerString device taddr) ≠ .ok v) :
    ∀ dp ∈ pollPoints client device targets,
      ("point", PyVal.pyInt taddr) ∉ dp.meta := by
  induction targets with
  | nil =>
    intro dp hdp
    simp [pollPoints] at hdp
  | cons pt rest ih =>
    intro dp hdp
    cases hc : client (pollerString device pt.address) with
    | ok v =>
      simp only [pollPoints, hc] at hdp
      rcases List.mem_cons.mp hdp with rfl | hdp'
      · intro hmem
        have haddr : taddr = pt.address := by
          by_cases hnum : pyIsNumeric v <;> simp [hnum] at hmem <;> exact hmem
        apply hfail v
        rw [haddr]
        exact hc
      · exact ih dp hdp'
    | noResponse =>
      simp only [pollPoints, hc] at hdp
      exact ih dp hdp
    | unknownObject =>
      simp only [pollPoints, hc] at hdp
      exact ih dp hdp
    | exc reason =>
      simp only [pollPoints, hc] at hdp
      exact ih dp hdp
    | baseExc =>
      simp only [pollPoints, hc] at hdp
      exact ih dp hdp

lemma pollPoints_point_of_ok (client : String → ReadResult) (device : String)
    (targets : List PollingPoint) (u : PollingPoint) (hu : u ∈ targets)
    (v : PyVal) (hv : client (pollerString device u.address) = .ok v) :
    ∃ dp ∈ pollPoints client device targets,
      ("point", PyVal.pyInt u.address) ∈ dp.meta := by
  induction targets with
  | nil => cases hu
  | cons pt rest ih =>
    rcases List.mem_cons.mp hu with rfl | hu'
    · simp only [pollPoints, hv]
      exact ⟨_, List.mem_cons_self _ _,
        by by_cases hnum : pyIsNumeric v <;> simp [hnum]⟩
    · obtain ⟨dp, hdp, hm⟩ := ih hu'
      cases hc : client (pollerString device pt.address) with
      | ok w =>
        refine ⟨dp, ?_, hm⟩
        simp only [pollPoints, hc]
        exact List.mem_cons_of_mem _ hdp
      | noResponse =>
        refine ⟨dp, ?_, hm⟩
        simp only [pollPoints, hc]
        exact hdp
      | unknownObject =>
        refine ⟨dp, ?_, hm⟩
        simp only [pollPoints, hc]
        exact hdp
      | exc reason =>
        refine ⟨dp, ?_, hm⟩
        simp only [pollPoints, hc]
        exact hdp
      | baseExc =>
        refine ⟨dp, ?_, hm⟩
        simp only [pollPoints, hc]
        exact hdp

lemma pollPoints_length_le (client : String → ReadResult) (device : String) :
    ∀ targets : List PollingPoint,
      (pollPoints client device targets).length ≤ targets.length := by
  intro targets
  induction targets with
  | nil => simp [pollPoints]
  | cons pt rest ih =>
    cases hc : client (pollerString device pt.address) <;>
      simp only [pollPoints, hc] <;> simp [List.length_cons] <;> omega

lemma pollPoints_length_lt (client : String → ReadResult) (device : String)
    (targets : List PollingPoint) (t : PollingPoint) (ht : t ∈ targets)
    (hfail : ∀ v, client (pollerString device t.address) ≠ .ok v) :
    (pollPoints client device targets).length < targets.length := by
  induction targets with
  | nil => cases ht
  | cons pt rest ih =>
    rcases List.mem_cons.mp ht with rfl | ht'
    · cases hc : client (pollerString device t.address) with
      | ok v => exact absurd hc (hfail v)
      | noResponse =>
        simp only [pollPoints, hc]
        have := pollPoints_length_le client device rest
        simp [List.length_cons]
        omega
      | unknownObject =>
        simp only [pollPoints, hc]
        have := pollPoints_length_le client device rest
        simp [List.length_cons]
        omega
      | exc reason =>
        simp only [pollPoints, hc]
        have := pollPoints_length_le client device rest
        simp [List.length_cons]
        omega
      | baseExc =>
        simp only [pollPoints, hc]
        have := pollPoints_length_le client device rest
        simp [List.length_cons]
        omega
    · cases hc : client (pollerString device pt.address) <;>
        simp only [pollPoints, hc] <;> simp [List.length_cons] <;>
        have := ih ht' <;> omega

/-! ## Claim theorems: device poller fault isolation (C5) -/

/-- C5: when one target of a device fails with any client exception
(timeout, unknown object, or any other error) while the others succeed,
the resulting point set excludes the failing target's point, still
contains a point for every other target, and is strictly smaller than the
target list (the failing target really is skipped); no exception
propagates — `serial_poller` is total over all `ReadResult` outcomes. -/
theorem c5_single_target_fault_isolated (client : String → ReadResult)
    (device : String) (targets : List PollingPoint) (t : PollingPoint)
    (ht : t ∈ targets)
    (hfail : ∀ v, client (pollerString device t.address) ≠ .ok v)
    (hok : ∀ u ∈ targets, u ≠ t →
      ∃ v, client (pollerString device u.address) = .ok v) :
    (∀ dp ∈ (serial_poller client device targets).data,
      ("point", PyVal.pyInt t.address) ∉ dp.meta) ∧
    (∀ u ∈ targets, u ≠ t →
      ∃ dp ∈ (serial_poller client device targets).data,
        ("point", PyVal.pyInt u.address) ∈ dp.meta) ∧
    (serial_poller client device targets).data.length < targets.length := by
  refine ⟨?_, ?_, ?_⟩
  · exact fun dp hdp =>
      pollPoints_no_point_of_fail client device targets t.address hfail dp hdp
  · intro u hu hne
    obtain ⟨v, hv⟩ := hok u hu hne
    exact pollPoints_point_of_ok client device targets u hu v hv
  · exact pollPoints_length_lt client device targets t ht hfail

/-- The stub client of the C5 witness: target address 3 times out, all
other reads return the string "OK". -/
def c5client : String → ReadResult := fun s =>
  if s = pollerString "d" 3 then .noResponse else .ok (.pyStr "OK")

/-- C5 witness: with targets 1 and 3 where 3 times out, the point for
address 3 is absent, a point for address 1 is present, and only one of
the two targets produced a point. -/
theorem c5_single_target_fault_isolated_witness :
    (∀ dp ∈ (serial_poller c5client "d" [⟨1, 1⟩, ⟨3, 1⟩]).data,
      ("point", PyVal.pyInt (3 : Int)) ∉ dp.meta) ∧
    (∀ u ∈ ([⟨1, 1⟩, ⟨3, 1⟩] : List PollingPoint), u ≠ ⟨3, 1⟩ →
      ∃ dp ∈ (serial_poller c5client "d" [⟨1, 1⟩, ⟨3, 1⟩]).data,
        ("point", PyVal.pyInt u.address) ∈ dp.meta) ∧
    (serial_poller c5client "d" [⟨1, 1⟩, ⟨3, 1⟩]).data.length <
      ([⟨1, 1⟩, ⟨3, 1⟩] : List PollingPoint).length := by
  have hfail : ∀ v, c5client (pollerString "d" (3 : Int)) ≠ .ok v := by
    intro v h
    rw [show c5client (pollerString "d" (3 : Int)) = .noResponse from rfl] at h
    exact ReadResult.noConfusion h
  have hok : ∀ u ∈ ([⟨1, 1⟩, ⟨3, 1⟩] : List PollingPoint), u ≠ ⟨3, 1⟩ →
      ∃ v, c5client (pollerString "d" u.address) = .ok v := by
    intro u hu hne
    rcases List.mem_cons.mp hu with rfl | hu'
    · exact ⟨.pyStr "OK", rfl⟩
    · rcases List.mem_cons.mp hu' with rfl | hu''
      · exact absurd rfl hne
      · cases hu''
  exact c5_single_target_fault_isolated c5client "d" [⟨1, 1⟩, ⟨3, 1⟩] ⟨3, 1⟩
    (by decide) hfail hok

/-! ## Claim theorems: value transformation and tagging (C7) -/

/-- C7: every point produced by `_serial_poller` stems from a successful
read of some target; if the raw value is numeric the stored value is
`float(raw) * multiplier` and the point is classified `DATA_FLOAT`,
otherwise the raw value is passed through unchanged and the point is
classified `DATA_STRING`; the classification is `DATA_FLOAT` exactly when
the stored value is a float; and every point carries exactly the tags
`point=<address>` and `device=<device>`. -/
theorem c7_value_transformation (client : String → ReadResult)
    (device : String) (targets : List PollingPoint) :
    ∀ dp ∈ (serial_poller client device targets).data,
      ∃ pt, pt ∈ targets ∧ ∃ raw,
        client (pollerString device pt.address) = .ok raw ∧
        dp.key = "BACnet_analogValue" ∧
        dp.meta = [("point", .pyInt pt.address), ("device", .pyStr device)] ∧
        ((pyIsNumeric raw = true ∧
          dp.value = .pyFloat (pyFloatFn raw * pt.multiplier) ∧
          dp.data_type = .DATA_FLOAT) ∨
         (pyIsNumeric raw = false ∧ dp.value = raw ∧
          dp.data_type = .DATA_STRING)) ∧
        (dp.data_type = .DATA_FLOAT ↔ ∃ q : ℚ, dp.value = .pyFloat q) := by
  induction targets with
  | nil =>
    intro dp hdp
    simp [serial_poller, pollPoints] at hdp
  | cons pt rest ih =>
    intro dp hdp
    have hdp' : dp ∈ pollPoints client device (pt :: rest) := hdp
    cases hc : client (pollerString device pt.address) with
    | ok v =>
      simp only [pollPoints, hc] at hdp'
      rcases List.mem_cons.mp hdp' with rfl | hmem
      · refine ⟨pt, List.mem_cons_self _ _, v, hc, ?_⟩
        by_cases hnum : pyIsNumeric v
        · rw [if_pos hnum]
          refine ⟨rfl, rfl, Or.inl ⟨hnum, rfl, rfl⟩, ?_⟩
          exact ⟨fun _ => ⟨pyFloatFn v * pt.multiplier, rfl⟩, fun _ => rfl⟩
        · rw [if_neg hnum]
          refine ⟨rfl, rfl,
            Or.inr ⟨by simpa using hnum, rfl, rfl⟩, ?_, ?_⟩
          · intro h
            exact absurd h (by simp)
          · rintro ⟨q, hq⟩
            exfalso
            apply hnum
            have hv : v = .pyFloat q := hq
            rw [hv]
            rfl
      · obtain ⟨pt', hpt', hrest⟩ := ih dp hmem
        exact ⟨pt', List.mem_cons_of_mem _ hpt', hrest⟩
    | noResponse =>
      simp only [pollPoints, hc] at hdp'
      obtain ⟨pt', hpt', hrest⟩ := ih dp hdp'
      exact ⟨pt', List.mem_cons_of_mem _ hpt', hrest⟩
    | unknownObject =>
      simp only [pollPoints, hc] at hdp'
      obtain ⟨pt', hpt', hrest⟩ := ih dp hdp'
      exact ⟨pt', List.mem_cons_of_mem _ hpt', hrest⟩
    | exc reason =>
      simp only [pollPoints, hc] at hdp'
      obtain ⟨pt', hpt', hrest⟩ := ih dp hdp'
      exact ⟨pt', List.mem_cons_of_mem _ hpt', hrest⟩
    | baseExc =>
      simp only [pollPoints, hc] at hdp'
      obtain ⟨pt', hpt', hrest⟩ := ih dp hdp'
      exact ⟨pt', List.mem_cons_of_mem _ hpt', hrest⟩

/-- The single data point produced in the C7 witness scenario: reading
raw value 3 for target address 5 with multiplier 2. -/
def c7dp : DataPoint :=
  DataPoint.mk "BACnet_analogValue"
    (.pyFloat (pyFloatFn (.pyInt 3) * (2 : ℚ))) .DATA_FLOAT
    [("point", .pyInt 5), ("device", .pyStr "d")]

/-- C7 witness: the theorem applied to the one point produced by a client
that returns the numeric raw value 3 for the single target `(5, 2)`. -/
theorem c7_value_transformation_witness :
    ∃ pt, pt ∈ ([⟨5, 2⟩] : List PollingPoint) ∧ ∃ raw,
      (fun _ : String => ReadResult.ok (PyVal.pyInt 3))
          (pollerString "d" pt.address) = .ok raw ∧
      c7dp.key = "BACnet_analogValue" ∧
      c7dp.meta = [("point", .pyInt pt.address), ("device", .pyStr "d")] ∧
      ((pyIsNumeric raw = true ∧
        c7dp.value = .pyFloat (pyFloatFn raw * pt.multiplier) ∧
        c7dp.data_type = .DATA_FLOAT) ∨
       (pyIsNumeric raw = false ∧ c7dp.value = raw ∧
        c7dp.data_type = .DATA_STRING)) ∧
      (c7dp.data_type = .DATA_FLOAT ↔ ∃ q : ℚ, c7dp.value = .pyFloat q) := by
  have hmem : c7dp ∈
      (serial_poller (fun _ => ReadResult.ok (PyVal.pyInt 3)) "d"
        [⟨5, 2⟩]).data :=
    List.mem_singleton.mpr rfl
  exact c7_value_transformation (fun _ => ReadResult.ok (PyVal.pyInt 3)) "d"
    [⟨5, 2⟩] c7dp hmem

/-! ## Claim theorems: collection run keeps empty point sets (C6) -/

/-- C6: `_PollBACnetIP.data` appends the `DeviceDataPoints` of every
polled device: with valid (nonempty) device identifiers, the `valid`
filter drops nothing, the payload has exactly one entry per configured
device, and each device's point set — including ones with zero points —
appears in the payload. -/
theorem c6_empty_point_sets_kept (client : String → ReadResult)
    (m : List (String × List PollingPoint)) (h : ∀ p ∈ m, p.1 ≠ "") :
    collector_data client m =
      (sortedArguments m).map (fun a => serial_poller client a.1 a.2) ∧
    (collector_data client m).length = m.length ∧
    ∀ p ∈ m, serial_poller client p.1 p.2 ∈ collector_data client m := by
  have hfilter : collector_data client m =
      (sortedArguments m).map (fun a => serial_poller client a.1 a.2) := by
    rw [collector_data]
    apply List.filter_eq_self.mpr
    intro ddv hddv
    obtain ⟨a, ha, rfl⟩ := List.mem_map.mp hddv
    have ha' : a ∈ m := ((List.perm_insertionSort _ m).mem_iff).mp ha
    simp only [DeviceDataPoints.valid, serial_poller, Bool.not_eq_true',
      decide_eq_false_iff_not]
    exact h a ha'
  refine ⟨hfilter, ?_, ?_⟩
  · rw [hfilter, List.length_map]
    exact (List.perm_insertionSort _ m).length_eq
  · intro p hp
    rw [hfilter]
    exact List.mem_map.mpr ⟨p, ((List.perm_insertionSort _ m).mem_iff).mpr hp, rfl⟩

/-- C6 witness: a device whose only target times out still contributes
its (empty) point set to the payload. -/
theorem c6_empty_point_sets_kept_witness :
    DeviceDataPoints.mk "dev" [] ∈
      collector_data (fun _ => ReadResult.noResponse) [("dev", [⟨1, 1⟩])] := by
  have h := c6_empty_point_sets_kept (fun _ => ReadResult.noResponse)
    [("dev", [⟨1, 1⟩])] (by decide)
  exact h.2.2 ("dev", [⟨1, 1⟩]) (List.mem_singleton_self _)

/-! ## String order lemmas for the device sort (C9) -/

lemma charsLe_total : ∀ as bs : List Char,
    charsLe as bs = true ∨ charsLe bs as = true := by
  intro as
  induction as with
  | nil => intro bs; left; rfl
  | cons a as ih =>
    intro bs
    cases bs with
    | nil => right; rfl
    | cons b bs =>
      by_cases h1 : a.toNat < b.toNat
      · left
        simp [charsLe, h1]
      · by_cases h2 : b.toNat < a.toNat
        · right
          simp [charsLe, h2]
        · rcases ih bs with h | h
          · left
            simp [charsLe, h1, h2, h]
          · right
            simp [charsLe, h1, h2, h]

lemma charsLe_trans : ∀ as bs cs : List Char, charsLe as bs = true →
    charsLe bs cs = true → charsLe as cs = true := by
  intro as
  induction as with
  | nil => intro bs cs _ _; rfl
  | cons a as ih =>
    intro bs cs h1 h2
    cases bs with
    | nil => simp [charsLe] at h1
    | cons b bs =>
      cases cs with
      | nil => simp [charsLe] at h2
      | cons c cs =>
        simp only [charsLe] at h1 h2 ⊢
        by_cases hab : a.toNat < b.toNat
        · by_cases hbc : b.toNat < c.toNat
          · simp [show a.toNat < c.toNat by omega]
          · by_cases hcb : c.toNat < b.toNat
            · simp [hbc, hcb] at h2
            · simp [show a.toNat < c.toNat by omega]
        · by_cases hba : b.toNat < a.toNat
          · simp [hab, hba] at h1
          · by_cases hbc : b.toNat < c.toNat
            · simp [show a.toNat < c.toNat by omega]
            · by_cases hcb : c.toNat < b.toNat
              · simp [hbc, hcb] at h2
              · have h1' : charsLe as bs = true := by
                  simpa [hab, hba] using h1
                have h2' : charsLe bs cs = true := by
                  simpa [hbc, hcb] using h2
                simp [show ¬a.toNat < c.toNat by omega,
                  show ¬c.toNat < a.toNat by omega]
                exact ih bs cs h1' h2'

lemma charsLe_antisymm : ∀ as bs : List Char, charsLe as bs = true →
    charsLe bs as = true → as = bs := by
  intro as
  induction as with
  | nil =>
    intro bs _ h2
    cases bs with
    | nil => rfl
    | cons b bs => simp [charsLe] at h2
  | cons a as ih =>
    intro bs h1 h2
    cases bs with
    | nil => simp [charsLe] at h1
    | cons b bs =>
      by_cases hab : a.toNat < b.toNat
      · simp [charsLe, show ¬b.toNat < a.toNat by omega, hab] at h2
      · by_cases hba : b.toNat < a.toNat
        · simp [charsLe, hab, hba] at h1
        · have ha : a = b := by
            have hn : a.toNat = b.toNat := by omega
            exact Char.eq_of_val_eq (UInt32.ext hn)
          subst ha
          have h1' : charsLe as bs = true := by
            simpa [charsLe, hab, hba] using h1
          have h2' : charsLe bs as = true := by
            simpa [charsLe, hab, hba] using h2
          rw [ih bs h1' h2']

lemma strLe_total (a b : String) : strLe a b = true ∨ strLe b a = true :=
  charsLe_total a.toList b.toList

lemma strLe_trans {a b c : String} (h1 : strLe a b = true)
    (h2 : strLe b c = true) : strLe a c = true :=
  charsLe_trans a.toList b.toList c.toList h1 h2

lemma strLe_antisymm {a b : String} (h1 : strLe a b = true)
    (h2 : strLe b a = true) : a = b := by
  have h := charsLe_antisymm a.toList b.toList h1 h2
  cases a
  cases b
  exact congrArg String.mk (by simpa [String.toList] using h)

instance : IsTotal (String × List PollingPoint)
    (fun a b => strLe a.1 b.1 = true) :=
  ⟨fun a b => strLe_total a.1 b.1⟩

instance : IsTrans (String × List PollingPoint)
    (fun a b => strLe a.1 b.1 = true) :=
  ⟨fun _ _ _ h1 h2 => strLe_trans h1 h2⟩

instance : IsAntisymm (String × List PollingPoint)
    (fun a b => strLe a.1 b.1 = true ∧ a.1 ≠ b.1) :=
  ⟨fun _ _ h1 h2 => absurd (strLe_antisymm h1.1 h2.1) h1.2⟩

/-! ## Claim theorems: deterministic device order (C9) -/

/-- C9: `_PollBACnetIP.data` polls devices in ascending order of their
identifiers (the `sorted(...)` of the dict items), so the polled order is
independent of the insertion order of the device-to-targets map: any two
maps holding the same entries (with distinct device identifiers, as dict
keys are) are polled in the identical order, and the device order of the
assembled point sets equals that polled order. -/
theorem c9_deterministic_device_order (client : String → ReadResult)
    (m1 m2 : List (String × List PollingPoint))
    (hperm : m1.Perm m2) (hnd : (m1.map Prod.fst).Nodup) :
    pollOrder m1 = pollOrder m2 ∧
    List.Pairwise (fun a b : String => strLe a b = true) (pollOrder m1) ∧
    ((sortedArguments m1).map (fun a => serial_poller client a.1 a.2)).map
      (fun ddv => ddv.device) = pollOrder m1 := by
  have hs1 : List.Sorted (fun a b : String × List PollingPoint =>
      strLe a.1 b.1 = true) (sortedArguments m1) :=
    List.sorted_insertionSort _ _
  have hs2 : List.Sorted (fun a b : String × List PollingPoint =>
      strLe a.1 b.1 = true) (sortedArguments m2) :=
    List.sorted_insertionSort _ _
  have hnd1 : ((sortedArguments m1).map Prod.fst).Nodup :=
    (((List.perm_insertionSort _ m1).map Prod.fst).symm).nodup hnd
  have hnd2 : ((sortedArguments m2).map Prod.fst).Nodup := by
    have hnd' : (m2.map Prod.fst).Nodup := ((hperm.map Prod.fst)).nodup hnd
    exact (((List.perm_insertionSort _ m2).map Prod.fst).symm).nodup hnd'
  have hp : (sortedArguments m1).Perm (sortedArguments m2) :=
    ((List.perm_insertionSort _ m1).trans hperm).trans
      (List.perm_insertionSort _ m2).symm
  have hstrict1 : List.Sorted (fun a b : String × List PollingPoint =>
      strLe a.1 b.1 = true ∧ a.1 ≠ b.1) (sortedArguments m1) :=
    hs1.and (List.pairwise_map.mp hnd1)
  have hstrict2 : List.Sorted (fun a b : String × List PollingPoint =>
      strLe a.1 b.1 = true ∧ a.1 ≠ b.1) (sortedArguments m2) :=
    hs2.and (List.pairwise_map.mp hnd2)
  have heq : sortedArguments m1 = sortedArguments m2 :=
    List.eq_of_perm_of_sorted hp hstrict1 hstrict2
  refine ⟨congrArg (List.map Prod.fst) heq, ?_, ?_⟩
  · exact List.pairwise_map.mpr hs1
  · rw [List.map_map]
    rfl

/-- C9 witness: two insertion orders of the same two-device map produce
the identical polled order. -/
theorem c9_deterministic_device_order_witness :
    pollOrder [("b", []), ("a", [])] = pollOrder [("a", []), ("b", [])] :=
  (c9_deterministic_device_order (fun _ => ReadResult.noResponse)
    [("b", []), ("a", [])] [("a", []), ("b", [])]
    (List.Perm.swap _ _ _) (by decide)).1

/-! ## Claim theorems: purge only after successful post (C8) -/

/-- The loop body events for a failed post: no purge. -/
lemma cycleEvents_false (interval dur : ℚ) :
    cycleEvents interval ⟨false, dur⟩ =
      [.evPoll, .evPost false, .evSleep (sleep_amount interval dur)] := rfl

/-- The loop body events for a successful post: purge right after the
post. -/
lemma cycleEvents_true (interval dur : ℚ) :
    cycleEvents interval ⟨true, dur⟩ =
      [.evPoll, .evPost true, .evPurge,
       .evSleep (sleep_amount interval dur)] := rfl

/-- C8: in every finite execution trace of the `PollingAgent.query` loop,
a `purge()` call occurs only immediately after a `post()` call that
returned success: every purge event has a predecessor, and that
predecessor is a successful post event. -/
theorem c8_purge_only_after_successful_post (interval : ℚ)
    (cycles : List LoopCycle) :
    ∀ i : Nat, (queryTrace interval cycles)[i]? = some .evPurge →
      0 < i ∧ (queryTrace interval cycles)[i - 1]? = some (.evPost true) := by
  induction cycles with
  | nil =>
    intro i h
    simp [queryTrace] at h
  | cons c cs ih =>
    obtain ⟨ps, dur⟩ := c
    intro i h
    rw [queryTrace] at h ⊢
    cases ps with
    | false =>
      rw [cycleEvents_false] at h ⊢
      simp only [List.cons_append, List.nil_append] at h ⊢
      match i, h with
      | 0, h => exact absurd h (by simp)
      | 1, h => exact absurd h (by simp)
      | 2, h => exact absurd h (by simp)
      | (j + 3), h =>
        simp only [List.getElem?_cons_succ] at h ⊢
        obtain ⟨hj, hpost⟩ := ih j h
        obtain ⟨k, rfl⟩ : ∃ k, j = k + 1 := ⟨j - 1, by omega⟩
        refine ⟨by omega, ?_⟩
        simpa using hpost
    | true =>
      rw [cycleEvents_true] at h ⊢
      simp only [List.cons_append, List.nil_append] at h ⊢
      match i, h with
      | 0, h => exact absurd h (by simp)
      | 1, h => exact absurd h (by simp)
      | 2, h => exact ⟨by omega, by simp⟩
      | 3, h => exact absurd h (by simp)
      | (j + 4), h =>
        simp only [List.getElem?_cons_succ] at h ⊢
        obtain ⟨hj, hpost⟩ := ih j h
        obtain ⟨k, rfl⟩ : ∃ k, j = k + 1 := ⟨j - 1, by omega⟩
        refine ⟨by omega, ?_⟩
        simpa using hpost

/-- C8 witness: in the one-cycle trace with a successful post, the purge
at position 2 is immediately preceded by the successful post at
position 1. -/
theorem c8_purge_only_after_successful_post_witness :
    0 < 2 ∧ (queryTrace 10 [⟨true, 3⟩])[2 - 1]? = some (.evPost true) :=
  c8_purge_only_after_successful_post 10 [⟨true, 3⟩] 2 rfl
